import Mathlib

/-!
Verification development for the UN-session PDF extraction repository.

The repository has two script families:
* Count UN Session Attendance: count.py and extract_delegates.py segment the
  raw text of a yearly attendance document into per-country chunks, call an
  external structured-inference service per chunk, and aggregate
  per-country delegation records.
* Extract Tables: extract_contributions.py, combine_contributions.py and
  fill_contributions.py turn per-year financial tables into contribution
  records, merge them across years, and join them onto other data sets by a
  normalized country key.

Python strings are modelled as Lean String or List Char; Python float values
are modelled exactly by DecNum, a pair of an integer mantissa and a base-10
exponent (every numeral the scripts parse denotes such a number); the
external inference calls are modelled as explicit oracle parameters, since
their behaviour is unconstrained.
-/

/-! ### Character and string utilities shared by the scripts -/

/-- The apostrophe character (code point 39). -/
def apos : Char := Char.ofNat 39

/-- ASCII uppercase letter test (code points 65-90), the semantics of the
regex class [A-Z]. -/
def isUpperAZ (c : Char) : Bool := 65 ≤ c.toNat && c.toNat ≤ 90

/-- ASCII lowercase letter test (code points 97-122), the semantics of the
regex class [a-z]. -/
def isLowerAZ (c : Char) : Bool := 97 ≤ c.toNat && c.toNat ≤ 122

/-- Whitespace as recognised by Python str.strip and the regex class \s
(space, tab, newline, carriage return, vertical tab, form feed).  Python
also treats some rarer Unicode spaces as whitespace; the documents only
contain these six. -/
def pyWS (c : Char) : Bool :=
  c = ' ' || c = Char.ofNat 9 || c = Char.ofNat 10 || c = Char.ofNat 13 ||
    c = Char.ofNat 11 || c = Char.ofNat 12

/-- Python str.strip: drop leading and trailing whitespace. -/
def pyStrip (l : List Char) : List Char :=
  ((l.dropWhile pyWS).reverse.dropWhile pyWS).reverse

/-- Does l start with p? -/
def startsWithL : List Char → List Char → Bool
  | _, [] => true
  | [], _ :: _ => false
  | c :: t, p :: ps => c = p && startsWithL t ps

/-- Does needle occur contiguously inside hay? -/
def containsSub (hay needle : List Char) : Bool :=
  match hay with
  | [] => needle.isEmpty
  | _ :: t => startsWithL hay needle || containsSub t needle

/-- The HTML comment opener used as a truncation marker in count.py. -/
def commentMark : List Char := ['<', '!', '-', '-']

/-- The prefix of a line before the first embedded comment marker, the
semantics of re.split taking component 0 in split_text_by_country. -/
def beforeComment : List Char → List Char
  | [] => []
  | c :: t => if startsWithL (c :: t) commentMark then [] else c :: beforeComment t

/-- Join lines with a newline separator, the semantics of str.join in
split_text_by_country. -/
def joinNL (ls : List (List Char)) : List Char :=
  List.intercalate [Char.ofNat 10] ls

/-! ### Exact decimal numbers standing in for Python float values -/

/-- An exact base-10 number m / 10 ^ e.  Every numeral accepted by the
scripts (an optional minus sign, digits, at most one decimal point) denotes
such a value, so this models the float values flowing through the
contribution scripts without rounding concerns. -/
structure DecNum where
  m : Int
  e : Nat
deriving DecidableEq

/-- The rational value of a DecNum. -/
def DecNum.toQ (d : DecNum) : ℚ := (d.m : ℚ) / 10 ^ d.e

/-- Exact addition of two DecNum values (common-denominator form),
modelling Python float addition on the decimals the scripts handle. -/
def DecNum.add (a b : DecNum) : DecNum :=
  ⟨a.m * 10 ^ b.e + b.m * 10 ^ a.e, a.e + b.e⟩

/-- Value of a digit character. -/
def digitVal (c : Char) : Nat := c.toNat - 48

/-- Natural number denoted by a digit string (0 for the empty string),
as Python int parsing of the integral and fractional parts. -/
def digitsToNat (l : List Char) : Nat :=
  l.foldl (fun a c => 10 * a + digitVal c) 0

/-- Python float(s) restricted to strings over digits, dot and minus, the
only alphabet that reaches it in these scripts: an optional leading minus,
at least one digit, at most one dot.  none models a raised ValueError. -/
def floatOfNumChars (l : List Char) : Option DecNum :=
  let neg : Bool := l.head? = some '-'
  let m := if neg then l.tail else l
  if m.any Char.isDigit && m.all (fun c => c.isDigit || c = '.') &&
      (m.count '.' ≤ 1) then
    let ip := m.takeWhile (fun c => c ≠ '.')
    let fp := (m.dropWhile (fun c => c ≠ '.')).drop 1
    let mant : Nat := digitsToNat ip * 10 ^ fp.length + digitsToNat fp
    some ⟨if neg then -(mant : Int) else (mant : Int), fp.length⟩
  else none

/-- Digit character of a value below 10. -/
def decDigit (n : Nat) : Char := Char.ofNat (48 + n)

/-- Decimal digits of a natural number (fuelled structural recursion). -/
def natDigitsAux : Nat → Nat → List Char
  | 0, _ => []
  | fuel + 1, n => if n < 10 then [decDigit n] else natDigitsAux fuel (n / 10) ++ [decDigit (n % 10)]

/-- Decimal digit string of a natural number. -/
def natDigits (n : Nat) : List Char := natDigitsAux (n + 1) n

/-- Exactly e digits of n, left padded with zeros. -/
def natDigitsPadded : Nat → Nat → List Char
  | 0, _ => []
  | e + 1, n => natDigitsPadded e (n / 10) ++ [decDigit (n % 10)]

/-- Drop trailing zero digits. -/
def dropTrailingZeros (l : List Char) : List Char :=
  (l.reverse.dropWhile (fun c => c = '0')).reverse

/-- Python str of a float holding the exact decimal d: sign, integral
digits, a dot, then the fractional digits with trailing zeros removed (a
single 0 when the value is integral).  Exact-decimal floats print this way;
the scripts only format values parsed from such numerals. -/
def pyStrOfDec (d : DecNum) : List Char :=
  let n := d.m.natAbs
  let ip := n / 10 ^ d.e
  let fr := dropTrailingZeros (natDigitsPadded d.e (n % 10 ^ d.e))
  (if d.m < 0 then ['-'] else []) ++ natDigits ip ++ '.' :: (if fr = [] then ['0'] else fr)

/-! ### Numeric normalizers of the contribution scripts -/

/-- Characters kept by the numeric-cleaning regexes: digit, dot, minus. -/
def numChar (c : Char) : Bool := c.isDigit || c = '.' || c = '-'

/-- The string-massaging steps of clean_numeric_value from
extract_contributions.py: strip, remove commas and spaces, keep only
digits, dot and minus. -/
def strippedNumeric (raw : List Char) : List Char :=
  ((pyStrip raw).filter (fun c => c ≠ ',' && c ≠ ' ')).filter numChar

/-- clean_numeric_value from extract_contributions.py: the massaged string
when a digit remains, the empty string otherwise.  The input is an Option:
none models a NaN cell (pd.isna), which also yields the empty string. -/
def clean_numeric_value (v : Option (List Char)) : List Char :=
  match v with
  | none => []
  | some raw => if (strippedNumeric raw).any Char.isDigit then strippedNumeric raw else []

/-- clean_numeric from combine_contributions.py: keep only digits, dot and
minus, map the empty, lone-dot and lone-minus strings to NaN, then parse as
float with any failure caught as NaN.  none models NaN (missing). -/
def clean_numeric (x : Option String) : Option DecNum :=
  match x with
  | none => none
  | some s =>
      if s.toList.filter numChar = [] || s.toList.filter numChar = ['.'] ||
          s.toList.filter numChar = ['-'] then none
      else floatOfNumChars (s.toList.filter numChar)

/-! ### Country segmenter of count.py -/

/-- One character of the tail of the heading regex, the class
[A-Z\s\-&,\x27\.] of split_text_by_country. -/
def headingTailChar (c : Char) : Bool :=
  isUpperAZ c || pyWS c || c = '-' || c = '&' || c = ',' || c = apos || c = '.'

/-- The heading test of split_text_by_country: the regex
^[A-Z][A-Z\s\-&,\x27\.]*$ matched against the cleaned line, so the first
character must be an ASCII uppercase letter and every later character must
be in the bracket class. -/
def isHeading : List Char → Bool
  | [] => false
  | c :: t => isUpperAZ c && t.all headingTailChar

/-- The heading criterion as the specification words it: the line consists
solely of uppercase letters, spaces, hyphens, ampersands, apostrophes,
periods and commas, and contains at least one letter.  Stated for
comparison with isHeading, the criterion the code implements. -/
def specHeading (l : List Char) : Bool :=
  l.any isUpperAZ &&
    l.all (fun c =>
      isUpperAZ c || c = ' ' || c = '-' || c = '&' || c = apos || c = '.' || c = ',')

/-- The cleaned form of a raw line: strip, truncate at the comment marker,
strip again, as in split_text_by_country. -/
def cleanOf (raw : List Char) : List Char :=
  pyStrip (beforeComment (pyStrip raw))

/-- The loop state of split_text_by_country: the chunks emitted so far, the
current country heading (none before the first heading; headings are never
empty, so Python truthiness of the current country agrees with isSome) and
the buffered body lines. -/
structure SegState where
  chunks : List (List Char × List Char)
  curr : Option (List Char)
  buf : List (List Char)
deriving DecidableEq

/-- One iteration of the line loop of split_text_by_country: skip a blank
stripped line; on a cleaned line matching the heading regex flush the
current chunk and start a new one; otherwise buffer the stripped line. -/
def segStep (st : SegState) (raw : List Char) : SegState :=
  if pyStrip raw = [] then st
  else if isHeading (cleanOf raw) then
    ⟨(match st.curr with
      | some c => st.chunks ++ [(c, joinNL st.buf)]
      | none => st.chunks), some (cleanOf raw), []⟩
  else ⟨st.chunks, st.curr, st.buf ++ [pyStrip raw]⟩

/-- The final flush of split_text_by_country: the trailing chunk is emitted
only when there is a current country and a nonempty buffer. -/
def segFinish (st : SegState) : List (List Char × List Char) :=
  match st.curr with
  | some c => if st.buf = [] then st.chunks else st.chunks ++ [(c, joinNL st.buf)]
  | none => st.chunks

/-- split_text_by_country from count.py, taking the text already split into
lines (the semantics of Python splitlines). -/
def split_text_by_country (lines : List (List Char)) : List (List Char × List Char) :=
  segFinish (lines.foldl segStep ⟨[], none, []⟩)

/-! ### Extraction pipeline of count.py -/

/-- A session record as produced by the count.py extraction chain and
consumed by its aggregation (one dict per session; the default dicts built
on failure carry exactly these fields). -/
structure Session where
  country : String
  year : String
  officials : List String
  representatives : List String
  alternate_representatives : List String
  advisers : List String
  leader_present : Bool
deriving DecidableEq

/-- The all-empty session dict count.py builds when the inference call
fails or returns an empty result. -/
def default_session (country year : String) : Session :=
  ⟨country, year, [], [], [], [], false⟩

/-- extract_sessions_from_text_chunks from count.py.  The extraction chain
is an oracle from (country, text) to either an exception or a list of
session dicts; an empty list is replaced by one default record, a raised
exception appends one default record, and otherwise every returned session
is appended after its year field is overwritten with the caller year. -/
def extract_sessions_from_text_chunks
    (oracle : String → String → Except Unit (List Session))
    (chunks : List (String × String)) (year : String) : List Session :=
  chunks.foldl
    (fun sessions chunk =>
      match oracle chunk.1 chunk.2 with
      | Except.error _ => sessions ++ [default_session chunk.1 year]
      | Except.ok result =>
          let result := if result = [] then [default_session chunk.1 year] else result
          sessions ++ result.map (fun s => { s with year := year }))
    []

/-! ### Extraction pipeline of extract_delegates.py -/

/-- The DelegationInfo dataclass of extract_delegates.py. -/
structure DelegationInfo where
  country : String
  year : String
  officials : List String
  representatives : List String
  alternate_representatives : List String
  advisers : List String
  leader_present : Bool
  leader_name : Option String
deriving DecidableEq

/-- A JSON object located in the inference response, before it is passed to
the DelegationInfo constructor: each field is present or absent, and
extraKeys records whether the object carries any key outside the eight
dataclass fields (such a key makes the constructor raise).  leader_name
distinguishes an absent key from a present null. -/
structure ParsedDelegation where
  country : Option String
  year : Option String
  officials : Option (List String)
  representatives : Option (List String)
  alternate_representatives : Option (List String)
  advisers : Option (List String)
  leader_present : Option Bool
  leader_name : Option (Option String)
  extraKeys : Bool
deriving DecidableEq

/-- Outcome of one inference call in extract_delegation_info: the call (or
the subsequent json.loads) raised, or the response text contained no braced
object, or a JSON object was located and parsed. -/
inductive InferenceResult where
  | raised
  | noJson
  | parsed (d : ParsedDelegation)
deriving DecidableEq

/-- Does the parsed object satisfy the DelegationInfo constructor: all
seven required fields present and no unexpected key?  (leader_name is the
only field with a default.) -/
def requiredPresent (d : ParsedDelegation) : Bool :=
  d.country.isSome && d.year.isSome && d.officials.isSome &&
    d.representatives.isSome && d.alternate_representatives.isSome &&
    d.advisers.isSome && d.leader_present.isSome && !d.extraKeys

/-- _create_empty_delegation from extract_delegates.py. -/
def create_empty_delegation (country year : String) : DelegationInfo :=
  ⟨country, year, [], [], [], [], false, none⟩

/-- extract_delegation_info from extract_delegates.py.  Everything from the
API call to the DelegationInfo constructor runs inside one try block whose
handler returns the empty delegation, so a raised call, a response without
a JSON object, and a parsed object rejected by the constructor all degrade
to the empty record; a parsed object accepted by the constructor is taken
as is, with only leader_name defaulted when absent. -/
def extract_delegation_info
    (oracle : String → String → String → InferenceResult)
    (country country_text year : String) : DelegationInfo :=
  match oracle country country_text year with
  | InferenceResult.raised => create_empty_delegation country year
  | InferenceResult.noJson => create_empty_delegation country year
  | InferenceResult.parsed d =>
      if requiredPresent d then
        ⟨d.country.getD "", d.year.getD "", d.officials.getD [],
          d.representatives.getD [], d.alternate_representatives.getD [],
          d.advisers.getD [], d.leader_present.getD false, d.leader_name.getD none⟩
      else create_empty_delegation country year

/-- The per-country loop of process_single_year from extract_delegates.py:
one DelegationInfo is appended for each country dict returned by the
segmentation call (a missing country key falls back to Unknown_i, a missing
raw_text key to the empty string). -/
def process_single_year_records
    (oracle : String → String → String → InferenceResult)
    (countries_data : List (Option String × Option String)) (year : String) :
    List DelegationInfo :=
  countries_data.enum.map
    (fun ic =>
      let country := match ic.2.1 with
        | some c => c
        | none => "Unknown_" ++ toString ic.1
      let country_text := (ic.2.2).getD ""
      extract_delegation_info oracle country country_text year)

/-! ### Contribution records of extract_contributions.py -/

/-- A record dict built by extract_contributions_data: the three numeric
fields are strings, empty when missing; an assessed numeral written by
str(float) is modelled through pyStrOfDec. -/
structure ContribRecordE where
  year : Int
  country : String
  annual_contributions : List Char
  total_outstanding_contributions : List Char
  assessed_contributions : List Char
deriving DecidableEq

/-- The year <= 2010 assessed computation of extract_contributions_data:
an empty field counts as 0, a field that does not parse as a float raises
(caught, leaving assessed empty), and the sum is recorded unless both
values are zero. -/
def extract_assessed_le2010 (aF oF : List Char) : Option DecNum :=
  let av := if aF = [] then some (⟨0, 0⟩ : DecNum) else floatOfNumChars aF
  let ov := if oF = [] then some (⟨0, 0⟩ : DecNum) else floatOfNumChars oF
  match av, ov with
  | some a, some o => if a.m = 0 && o.m = 0 then none else some (a.add o)
  | _, _ => none

/-- A year <= 2010 record of extract_contributions_data, given the cell
texts of the resolved collections and outstanding columns (none models an
unresolved column or a NaN cell, both of which leave the field empty). -/
def extract_record_le2010 (year : Int) (country : String)
    (annualCell outstandingCell : Option (List Char)) : ContribRecordE :=
  let aF := clean_numeric_value annualCell
  let oF := clean_numeric_value outstandingCell
  ⟨year, country, aF, oF,
    match extract_assessed_le2010 aF oF with
    | none => []
    | some d => pyStrOfDec d⟩

/-- A year 2011-2016 record of extract_contributions_data: assessed is the
cleaned cell of the resolved assessed column, the legacy fields stay
empty. -/
def extract_record_post2010 (year : Int) (country : String)
    (assessedCell : Option (List Char)) : ContribRecordE :=
  ⟨year, country, [], [], clean_numeric_value assessedCell⟩

/-- The year dispatch of extract_contributions_data. -/
def extract_record (year : Int) (country : String)
    (annualCell outstandingCell assessedCell : Option (List Char)) : ContribRecordE :=
  if year ≤ 2010 then extract_record_le2010 year country annualCell outstandingCell
  else extract_record_post2010 year country assessedCell

/-- The row loop of extract_contributions_data over one table: a row whose
country cell is NaN or blank after stripping is skipped, every other row
yields exactly one record.  A row is (country cell, collections cell,
outstanding cell, assessed cell). -/
def extract_rows (year : Int)
    (rows : List (Option String × Option String × Option String × Option String)) :
    List ContribRecordE :=
  rows.foldr
    (fun row acc =>
      match row.1 with
      | none => acc
      | some c =>
          let cs := String.mk (pyStrip c.toList)
          if cs = "" then acc
          else
            extract_record year cs ((row.2.1).map String.toList)
              ((row.2.2.1).map String.toList) ((row.2.2.2).map String.toList) :: acc)
    []

/-! ### Contribution records of combine_contributions.py -/

/-- A row of the merged frame built by combine_contributions.py: numeric
fields are floats or NaN (none). -/
structure ContribRecordC where
  year : Int
  country : String
  annual_contributions : Option DecNum
  total_outstanding_contributions : Option DecNum
  assessed_contributions : Option DecNum
deriving DecidableEq

/-- A year <= 2010 row of process_file: annual from column 5, outstanding
from column 8, assessed is their sum exactly when both are present. -/
def combine_row_le2010 (year : Int) (country : String)
    (annualCell outstandingCell : Option String) : ContribRecordC :=
  let annual := clean_numeric annualCell
  let outstanding := clean_numeric outstandingCell
  ⟨year, country, annual, outstanding,
    match annual, outstanding with
    | some a, some o => some (a.add o)
    | _, _ => none⟩

/-- A year 2011-2015 row of process_file: assessed from column 4, the
legacy fields NaN. -/
def combine_row_2011_2015 (year : Int) (country : String)
    (assessedCell : Option String) : ContribRecordC :=
  ⟨year, country, none, none, clean_numeric assessedCell⟩

/-- A year 2016 row of process_file: assessed from column 7, the legacy
fields NaN. -/
def combine_row_2016 (year : Int) (country : String)
    (assessedCell : Option String) : ContribRecordC :=
  ⟨year, country, none, none, clean_numeric assessedCell⟩

/-- The sheet loop of process_file for a year <= 2010 sheet: every row
yields one record; the country cell is stripped (NaN filled with the empty
string first). -/
def combine_sheet_le2010 (year : Int)
    (rows : List (Option String × Option String × Option String)) :
    List ContribRecordC :=
  rows.map
    (fun row =>
      combine_row_le2010 year (String.mk (pyStrip (((row.1).getD "").toList)))
        row.2.1 row.2.2)

/-- Python str.lower restricted to ASCII letters; the country strings the
total filter sees are ASCII. -/
def lowerAZ (c : Char) : Char :=
  if isUpperAZ c then Char.ofNat (c.toNat + 32) else c

/-- Is a merged row an aggregate row: does its lower-cased country contain
the substring total (the filter of the combine_contributions main block). -/
def row_is_total (country : String) : Bool :=
  containsSub (country.toList.map lowerAZ) "total".toList

/-- The final filter of the combine_contributions main block: remove every
row whose country contains total case-insensitively, keep the rest. -/
def filter_total_rows (l : List ContribRecordC) : List ContribRecordC :=
  l.filter (fun r => !(row_is_total r.country))

/-! ### Country-name reconciler of fill_contributions.py -/

/-- Python str.lower on the character repertoire of the country data:
ASCII uppercase letters and the accented Latin capitals that occur in UN
country names map to their lowercase forms, everything else is unchanged. -/
def pyLower (c : Char) : Char :=
  if isUpperAZ c then Char.ofNat (c.toNat + 32)
  else if c.toNat < 128 then c
  else
    match c with
    | 'À' => 'à' | 'Á' => 'á' | 'Â' => 'â' | 'Ä' => 'ä' | 'Ç' => 'ç'
    | 'É' => 'é' | 'È' => 'è' | 'Ê' => 'ê' | 'Ë' => 'ë' | 'Í' => 'í'
    | 'Î' => 'î' | 'Ï' => 'ï' | 'Ñ' => 'ñ' | 'Ó' => 'ó' | 'Ô' => 'ô'
    | 'Ö' => 'ö' | 'Ú' => 'ú' | 'Û' => 'û' | 'Ü' => 'ü'
    | _ => c

/-- NFKD decomposition followed by ASCII encoding with errors ignored, per
character: ASCII characters survive unchanged, accented Latin letters of
the country data decompose to their base letter (the combining mark is then
dropped by the ASCII encoding), any other non-ASCII character is dropped. -/
def nfkdAscii (c : Char) : List Char :=
  if c.toNat < 128 then [c]
  else
    match c with
    | 'à' | 'á' | 'â' | 'ä' => ['a']
    | 'ç' => ['c']
    | 'é' | 'è' | 'ê' | 'ë' => ['e']
    | 'í' | 'î' | 'ï' => ['i']
    | 'ñ' => ['n']
    | 'ó' | 'ô' | 'ö' => ['o']
    | 'ú' | 'û' | 'ü' => ['u']
    | _ => []

/-- The character pipeline of normalize_country: lower-case, decompose and
strip to ASCII, keep only the letters a-z. -/
def normalizeChars (l : List Char) : List Char :=
  ((l.map pyLower).flatMap nfkdAscii).filter isLowerAZ

/-- normalize_country from fill_contributions.py on a string value. -/
def normalize_country (s : String) : String :=
  String.mk (normalizeChars s.toList)

/-- normalize_country including its NaN branch: a missing cell yields the
empty string. -/
def normalize_country_cell (x : Option String) : String :=
  match x with
  | none => ""
  | some s => normalize_country s

/-! ### Presentation sorting of the aggregators -/

/-- Insert x into l, passing every element that strictly precedes it: the
inner step of a stable insertion sort. -/
def ordInsert (le : α → α → Bool) (x : α) : List α → List α
  | [] => [x]
  | y :: ys => if le x y then x :: y :: ys else y :: ordInsert le x ys

/-- Stable sort by the comparator le, modelling the stable lexsort pandas
uses for a multi-column sort_values. -/
def isortBy (le : α → α → Bool) (l : List α) : List α :=
  l.foldr (ordInsert le) []

/-- Code-point comparison of character lists, the order pandas uses on
string columns. -/
def listLeB : List Char → List Char → Bool
  | [], _ => true
  | _ :: _, [] => false
  | a :: as, b :: bs => if a < b then true else if b < a then false else listLeB as bs

/-- Code-point comparison of strings. -/
def strLeB (a b : String) : Bool := listLeB a.toList b.toList

/-- Comparison of optional numeric years with missing years last
(na_position last in extract_delegates.save_to_excel). -/
def optIntLeB : Option Int → Option Int → Bool
  | _, none => true
  | none, some _ => false
  | some a, some b => a ≤ b

/-- Lexicographic combination of two comparators: compare the second
components when the first components are equal, the first otherwise. -/
def pairLeB [DecidableEq α] (le1 : α → α → Bool) (le2 : β → β → Bool)
    (x y : α × β) : Bool :=
  if x.1 = y.1 then le2 x.2 y.2 else le1 x.1 y.1

/-- An output row of save_sessions_to_excel in count.py (count columns are
naturals, leader_present is exported as an integer flag). -/
structure CountRow where
  country : String
  year : String
  officials : Nat
  leader_present : Nat
  representatives : Nat
  alternate_representatives : Nat
  advisers : Nat
  attendees : Nat
deriving DecidableEq

/-- The sort key of save_sessions_to_excel: the country and year columns. -/
def countRowKey (r : CountRow) : String × String := (r.country, r.year)

/-- The sort of save_sessions_to_excel: ascending by country then year,
stable. -/
def sort_count_rows (rows : List CountRow) : List CountRow :=
  isortBy (fun a b => pairLeB strLeB strLeB (countRowKey a) (countRowKey b)) rows

/-- An output row of save_to_excel in extract_delegates.py after its year
column went through pd.to_numeric with coercion: the year values there are
four-digit numerals or the Unknown sentinel, so the column holds an integer
or NaN (none). -/
structure DelegRow where
  country : String
  yearNum : Option Int
  total_attendees : Nat
  leader_present : Nat
deriving DecidableEq

/-- The sort key of save_to_excel in extract_delegates.py. -/
def delegRowKey (r : DelegRow) : String × Option Int := (r.country, r.yearNum)

/-- The sort of save_to_excel in extract_delegates.py: ascending by country
then numeric year, missing years last, stable. -/
def sort_deleg_rows (rows : List DelegRow) : List DelegRow :=
  isortBy (fun a b => pairLeB strLeB optIntLeB (delegRowKey a) (delegRowKey b)) rows

/-- The sort key of the merged-frame sort in process_all_pdfs of
extract_contributions.py: year first, then country. -/
def contribRowKey (r : ContribRecordE) : Int × String := (r.year, r.country)

/-- The merged-frame sort of process_all_pdfs: ascending by year then
country, stable. -/
def sort_contrib_rows (rows : List ContribRecordE) : List ContribRecordE :=
  isortBy (fun a b => pairLeB (fun x y : Int => x ≤ y) strLeB (contribRowKey a) (contribRowKey b)) rows

/-- The ordering the specification claims for every presentation sort:
ascending by the pair (country, year).  Stated for comparison with the
orders the code uses. -/
def specContribLe (a b : ContribRecordE) : Bool :=
  pairLeB strLeB (fun x y : Int => x ≤ y) (a.country, a.year) (b.country, b.year)

/-! ## Theorems -/

/-! ### Claim C7: the country-name reconciler -/

theorem isLowerAZ_iff {c : Char} : isLowerAZ c = true ↔ 97 ≤ c.toNat ∧ c.toNat ≤ 122 := by
  simp [isLowerAZ]

theorem pyLower_of_lower {c : Char} (h : isLowerAZ c = true) : pyLower c = c := by
  rcases isLowerAZ_iff.1 h with ⟨h1, h2⟩
  unfold pyLower
  rw [if_neg, if_pos]
  · omega
  · simp only [isUpperAZ, Bool.and_eq_true, decide_eq_true_eq]
    omega

theorem nfkdAscii_of_lower {c : Char} (h : isLowerAZ c = true) : nfkdAscii c = [c] := by
  rcases isLowerAZ_iff.1 h with ⟨_, h2⟩
  unfold nfkdAscii
  rw [if_pos]
  omega

theorem normalizeChars_all_lower (l : List Char) :
    ∀ c ∈ normalizeChars l, isLowerAZ c = true := by
  intro c hc
  exact (List.mem_filter.1 hc).2

theorem normalizeChars_of_lower (l : List Char) (h : ∀ c ∈ l, isLowerAZ c = true) :
    normalizeChars l = l := by
  induction l with
  | nil => rfl
  | cons c t ih =>
      have hc := h c (List.mem_cons_self c t)
      have ht := ih (fun x hx => h x (List.mem_cons_of_mem c hx))
      simp only [normalizeChars, List.map_cons, List.flatMap_cons, List.filter_append] at *
      rw [pyLower_of_lower hc, nfkdAscii_of_lower hc]
      simp [hc, ht]

theorem toList_mk (l : List Char) : (String.mk l).toList = l := rfl

/-- Claim C7: normalize_country lower-cases, strips diacritics by Unicode
decomposition, and removes every character outside a-z; it is idempotent,
and the three spelling variants of Cote d Ivoire from the specification all
normalize to the same key. -/
theorem claim_C7_theorem :
    (∀ s : String, normalize_country (normalize_country s) = normalize_country s)
    ∧ normalize_country "Côte d\x27Ivoire" = normalize_country "COTE D IVOIRE"
    ∧ normalize_country "COTE D IVOIRE" = normalize_country "cote-d-ivoire"
    ∧ normalize_country "cote-d-ivoire" = "cotedivoire" := by
  refine ⟨?_, by decide, by decide, by decide⟩
  intro s
  unfold normalize_country
  rw [toList_mk]
  rw [normalizeChars_of_lower _ (normalizeChars_all_lower s.toList)]

/-! ### Claim C6: the numeric normalizers -/

theorem floatOfNumChars_any_digit {l : List Char} {d : DecNum}
    (h : floatOfNumChars l = some d) : l.any Char.isDigit = true := by
  unfold floatOfNumChars at h
  by_cases hg :
      ((if (l.head? = some '-' : Bool) then l.tail else l).any Char.isDigit &&
        (if (l.head? = some '-' : Bool) then l.tail else l).all (fun c => c.isDigit || c = '.') &&
        ((if (l.head? = some '-' : Bool) then l.tail else l).count '.' ≤ 1)) = true
  · have hd : (if (l.head? = some '-' : Bool) then l.tail else l).any Char.isDigit = true := by
      simp only [Bool.and_eq_true] at hg
      exact hg.1.1
    by_cases hneg : (l.head? = some '-' : Bool) = true
    · rw [if_pos hneg] at hd
      rcases List.any_eq_true.1 hd with ⟨c, hc, hcd⟩
      exact List.any_eq_true.2 ⟨c, List.mem_of_mem_tail hc, hcd⟩
    · rw [if_neg hneg] at hd
      exact hd
  · rw [if_neg hg] at h
    exact absurd h (by simp)

/-- Claim C6 counterexample: on the string 1.2.3 the extract-side
normalizer clean_numeric_value returns the string 1.2.3 itself, which is
neither missing nor a clean decimal (float parsing fails on it), refuting
the claim that every input is reduced to a clean decimal or missing. -/
theorem claim_C6_counterexample :
    clean_numeric_value (some "1.2.3".toList) = "1.2.3".toList
    ∧ floatOfNumChars "1.2.3".toList = none
    ∧ "1.2.3".toList ≠ [] := by
  refine ⟨by decide, by decide, by decide⟩

/-- Claim C6 as amended: the combine-side normalizer clean_numeric maps the
four specification examples as claimed and returns a value only for inputs
that contain a digit (so zero never stands in for missing); the
extract-side normalizer clean_numeric_value maps the four examples as
claimed and returns either the empty string or a digit-containing stripped
string, but that string need not itself be a well-formed decimal. -/
theorem claim_C6_theorem :
    (clean_numeric (some "1,234.50")).map DecNum.toQ = some (1234.5 : ℚ)
    ∧ clean_numeric (some "--") = none
    ∧ clean_numeric (some "") = none
    ∧ clean_numeric (some "N/A") = none
    ∧ clean_numeric_value (some "1,234.50".toList) = "1234.50".toList
    ∧ clean_numeric_value (some "--".toList) = []
    ∧ clean_numeric_value (some "".toList) = []
    ∧ clean_numeric_value (some "N/A".toList) = []
    ∧ (∀ s : String, clean_numeric (some s) = none ∨ s.toList.any Char.isDigit = true)
    ∧ (∀ v : Option (List Char),
        clean_numeric_value v = [] ∨ (clean_numeric_value v).any Char.isDigit = true) := by
  refine ⟨?_, by decide, by decide, by decide, by decide, by decide, by decide, by decide, ?_, ?_⟩
  · rw [show clean_numeric (some "1,234.50") = some ⟨123450, 2⟩ from by decide]
    simp [DecNum.toQ]
    norm_num
  · intro s
    rcases hc : clean_numeric (some s) with _ | d
    · exact Or.inl rfl
    · refine Or.inr ?_
      simp only [clean_numeric] at hc
      split at hc
      · exact absurd hc (by simp)
      · rcases List.any_eq_true.1 (floatOfNumChars_any_digit hc) with ⟨c, hcm, hcd⟩
        exact List.any_eq_true.2 ⟨c, (List.mem_filter.1 hcm).1, hcd⟩
  · intro v
    cases v with
    | none => exact Or.inl rfl
    | some raw =>
        simp only [clean_numeric_value]
        split
        · rename_i hd
          exact Or.inr hd
        · exact Or.inl rfl

/-! ### Claims C3 and C9: the country segmenter -/

theorem cleanOf_of_strip_nil {raw : List Char} (h : pyStrip raw = []) : cleanOf raw = [] := by
  unfold cleanOf
  rw [h]
  rfl

theorem strip_ne_nil_of_heading {raw : List Char} (h : isHeading (cleanOf raw) = true) :
    pyStrip raw ≠ [] := by
  intro hnil
  rw [cleanOf_of_strip_nil hnil] at h
  exact absurd h (by decide)

theorem segStep_blank {st : SegState} {raw : List Char} (h : pyStrip raw = []) :
    segStep st raw = st := by
  unfold segStep
  rw [if_pos h]

theorem segStep_heading {st : SegState} {raw : List Char} (h : isHeading (cleanOf raw) = true) :
    segStep st raw =
      ⟨(match st.curr with
        | some c => st.chunks ++ [(c, joinNL st.buf)]
        | none => st.chunks), some (cleanOf raw), []⟩ := by
  unfold segStep
  rw [if_neg (strip_ne_nil_of_heading h), if_pos h]

theorem segStep_body {st : SegState} {raw : List Char} (h1 : pyStrip raw ≠ [])
    (h2 : isHeading (cleanOf raw) = false) :
    segStep st raw = ⟨st.chunks, st.curr, st.buf ++ [pyStrip raw]⟩ := by
  unfold segStep
  rw [if_neg h1, if_neg]
  simp [h2]

theorem segRun_none_buf (lines : List (List Char)) :
    ∀ cs b b', segFinish (lines.foldl segStep ⟨cs, none, b⟩) =
      segFinish (lines.foldl segStep ⟨cs, none, b'⟩) := by
  induction lines with
  | nil => intro cs b b'; rfl
  | cons raw rest ih =>
      intro cs b b'
      simp only [List.foldl_cons]
      by_cases h1 : pyStrip raw = []
      · rw [segStep_blank h1, segStep_blank h1]
        exact ih cs b b'
      · by_cases h2 : isHeading (cleanOf raw) = true
        · rw [segStep_heading h2, segStep_heading h2]
        · rw [segStep_body h1 (Bool.not_eq_true _ ▸ h2),
            segStep_body h1 (Bool.not_eq_true _ ▸ h2)]
          exact ih cs (b ++ [pyStrip raw]) (b' ++ [pyStrip raw])

theorem segRun_discard (pre : List (List Char)) :
    ∀ cs b (rest : List (List Char)), (∀ l ∈ pre, isHeading (cleanOf l) = false) →
      segFinish ((pre ++ rest).foldl segStep ⟨cs, none, b⟩) =
        segFinish (rest.foldl segStep ⟨cs, none, b⟩) := by
  induction pre with
  | nil => intro cs b rest _; rfl
  | cons p pre ih =>
      intro cs b rest h
      have hp := h p (List.mem_cons_self p pre)
      have hrest : ∀ l ∈ pre, isHeading (cleanOf l) = false :=
        fun l hl => h l (List.mem_cons_of_mem p hl)
      simp only [List.cons_append, List.foldl_cons]
      by_cases h1 : pyStrip p = []
      · rw [segStep_blank h1]
        exact ih cs b rest hrest
      · rw [segStep_body h1 hp]
        rw [ih cs (b ++ [pyStrip p]) rest hrest]
        exact segRun_none_buf rest cs (b ++ [pyStrip p]) b

theorem segRun_body_lines (body : List (List Char)) :
    ∀ cs cur b, (∀ l ∈ body, pyStrip l ≠ [] ∧ isHeading (cleanOf l) = false) →
      body.foldl segStep ⟨cs, some cur, b⟩ = ⟨cs, some cur, b ++ body.map pyStrip⟩ := by
  induction body with
  | nil => intro cs cur b _; simp
  | cons p body ih =>
      intro cs cur b h
      have hp := h p (List.mem_cons_self p body)
      simp only [List.foldl_cons]
      rw [segStep_body hp.1 hp.2]
      rw [ih cs cur (b ++ [pyStrip p]) (fun l hl => h l (List.mem_cons_of_mem p hl))]
      simp

theorem segRun_no_heading (lines : List (List Char)) :
    ∀ cs b, (∀ l ∈ lines, isHeading (cleanOf l) = false) →
      segFinish (lines.foldl segStep ⟨cs, none, b⟩) = cs := by
  induction lines with
  | nil => intro cs b _; rfl
  | cons p rest ih =>
      intro cs b h
      have hp := h p (List.mem_cons_self p rest)
      have hrest : ∀ l ∈ rest, isHeading (cleanOf l) = false :=
        fun l hl => h l (List.mem_cons_of_mem p hl)
      simp only [List.foldl_cons]
      by_cases h1 : pyStrip p = []
      · rw [segStep_blank h1]
        exact ih cs b hrest
      · rw [segStep_body h1 hp]
        exact ih cs (b ++ [pyStrip p]) hrest

/-- Claim C3 counterexample: the line consisting of a comma followed by
the letter A satisfies the heading criterion as the specification words it
(solely allowed characters, at least one letter) but the code classifies it
as a non-heading, because its regex requires the first character to be an
uppercase letter; consequently a document whose only candidate heading is
that line yields no chunks. -/
theorem claim_C3_counterexample :
    specHeading ",A".toList = true
    ∧ isHeading ",A".toList = false
    ∧ split_text_by_country [",A".toList, "body line".toList] = [] := by
  refine ⟨by decide, by decide, by decide⟩

/-- Claim C3 as amended: a cleaned line is classified as a country heading
exactly when it is nonempty, begins with an ASCII uppercase letter, and
every later character is an uppercase letter, whitespace, hyphen,
ampersand, apostrophe, period or comma; the FRANCE/GERMANY document yields
exactly those two chunks in order, and a document with no line matching the
heading pattern yields zero chunks. -/
theorem claim_C3_theorem :
    (∀ l : List Char, isHeading l = true ↔
      ∃ c t, l = c :: t ∧ isUpperAZ c = true ∧ t.all headingTailChar = true)
    ∧ split_text_by_country
        ["FRANCE".toList, "Mr. Alpha".toList, "Ms. Beta".toList,
          "GERMANY".toList, "Herr Gamma".toList] =
      [("FRANCE".toList, "Mr. Alpha\nMs. Beta".toList),
        ("GERMANY".toList, "Herr Gamma".toList)]
    ∧ split_text_by_country ["hello world".toList, "foo".toList, "123".toList] = [] := by
  refine ⟨?_, by decide, by decide⟩
  intro l
  constructor
  · intro h
    cases l with
    | nil => exact absurd h (by decide)
    | cons c t =>
        simp only [isHeading, Bool.and_eq_true] at h
        exact ⟨c, t, rfl, h.1, h.2⟩
  · rintro ⟨c, t, rfl, h1, h2⟩
    simp only [isHeading, Bool.and_eq_true]
    exact ⟨h1, h2⟩

/-- Claim C9: the segmenter discards all lines preceding the first
detected heading, flushes a trailing nonempty body with no following
heading as the last chunk at end of input, and returns an empty sequence
rather than an error when no line is a detectable heading. -/
theorem claim_C9_theorem :
    (∀ pre rest : List (List Char), (∀ l ∈ pre, isHeading (cleanOf l) = false) →
      split_text_by_country (pre ++ rest) = split_text_by_country rest)
    ∧ (∀ (doc : List (List Char)) (h : List Char) (body : List (List Char)),
        isHeading (cleanOf h) = true → body ≠ [] →
        (∀ l ∈ body, pyStrip l ≠ [] ∧ isHeading (cleanOf l) = false) →
        (split_text_by_country (doc ++ h :: body)).getLast? =
          some (cleanOf h, joinNL (body.map pyStrip)))
    ∧ (∀ doc : List (List Char), (∀ l ∈ doc, isHeading (cleanOf l) = false) →
        split_text_by_country doc = []) := by
  refine ⟨?_, ?_, ?_⟩
  · intro pre rest h
    exact segRun_discard pre [] [] rest h
  · intro doc h body hh hb hbody
    unfold split_text_by_country
    rw [List.foldl_append]
    simp only [List.foldl_cons]
    rw [segStep_heading hh]
    rw [segRun_body_lines body _ _ _ hbody]
    unfold segFinish
    simp only [List.nil_append]
    rw [if_neg (by simpa using hb)]
    exact List.getLast?_concat _
  · intro doc h
    exact segRun_no_heading doc [] [] h

/-- Witness for claim C9 at concrete documents: a non-heading intro line is
discarded, a trailing body is flushed as the last chunk, and a document
with no heading yields the empty chunk list. -/
theorem claim_C9_witness :
    split_text_by_country (["intro text".toList] ++ ["FRANCE".toList, "Mr. Alpha".toList]) =
      split_text_by_country ["FRANCE".toList, "Mr. Alpha".toList]
    ∧ (split_text_by_country ([] ++ "FRANCE".toList :: ["Mr. Alpha".toList])).getLast? =
      some (cleanOf "FRANCE".toList, joinNL (["Mr. Alpha".toList].map pyStrip))
    ∧ split_text_by_country ["no heading here".toList] = [] :=
  ⟨claim_C9_theorem.1 ["intro text".toList] ["FRANCE".toList, "Mr. Alpha".toList] (by decide),
    claim_C9_theorem.2.1 [] "FRANCE".toList ["Mr. Alpha".toList] (by decide) (by decide)
      (by decide),
    claim_C9_theorem.2.2 ["no heading here".toList] (by decide)⟩

/-! ### Claim C1: record count versus chunk count -/

theorem extract_sessions_go (oracle : String → String → Except Unit (List Session))
    (chunks : List (String × String)) (year : String) :
    ∀ acc : List Session,
      chunks.foldl
        (fun sessions chunk =>
          match oracle chunk.1 chunk.2 with
          | Except.error _ => sessions ++ [default_session chunk.1 year]
          | Except.ok result =>
              let result := if result = [] then [default_session chunk.1 year] else result
              sessions ++ result.map (fun s => { s with year := year }))
        acc =
      acc ++ chunks.flatMap
        (fun chunk =>
          match oracle chunk.1 chunk.2 with
          | Except.error _ => [default_session chunk.1 year]
          | Except.ok result =>
              (if result = [] then [default_session chunk.1 year] else result).map
                (fun s => { s with year := year })) := by
  induction chunks with
  | nil => intro acc; simp
  | cons c rest ih =>
      intro acc
      simp only [List.foldl_cons, List.flatMap_cons]
      cases h : oracle c.1 c.2 with
      | error e => rw [ih]; simp
      | ok result => rw [ih]; simp

theorem extract_sessions_eq_flatMap (oracle : String → String → Except Unit (List Session))
    (chunks : List (String × String)) (year : String) :
    extract_sessions_from_text_chunks oracle chunks year =
      chunks.flatMap
        (fun chunk =>
          match oracle chunk.1 chunk.2 with
          | Except.error _ => [default_session chunk.1 year]
          | Except.ok result =>
              (if result = [] then [default_session chunk.1 year] else result).map
                (fun s => { s with year := year })) := by
  unfold extract_sessions_from_text_chunks
  rw [extract_sessions_go oracle chunks year []]
  simp

/-- Claim C1 counterexample: an inference call that returns two session
dicts for a single chunk makes count.py append two records for that one
chunk, so the record count exceeds the chunk count and the claimed
one-record-per-chunk invariant fails. -/
theorem claim_C1_counterexample :
    (extract_sessions_from_text_chunks
        (fun _ _ => Except.ok [default_session "A" "NA", default_session "A" "NA"])
        [("A", "chunk text")] "2000").length ≠
      ([("A", "chunk text")] : List (String × String)).length := by
  decide

/-- Claim C1 as amended: in count.py each chunk contributes one record when
the inference call raises or returns an empty list, and one record per
returned session otherwise, so the record count is the sum of those
per-chunk counts and is always at least the chunk count, with equality
exactly when every successful call returns a single session; in
extract_delegates.py each segmented country contributes exactly one
record. -/
theorem claim_C1_theorem :
    (∀ (oracle : String → String → Except Unit (List Session))
        (chunks : List (String × String)) (year : String),
      (extract_sessions_from_text_chunks oracle chunks year).length =
        (chunks.map
          (fun chunk =>
            match oracle chunk.1 chunk.2 with
            | Except.error _ => 1
            | Except.ok [] => 1
            | Except.ok (s :: rest) => (s :: rest).length)).sum)
    ∧ (∀ (oracle : String → String → Except Unit (List Session))
        (chunks : List (String × String)) (year : String),
        chunks.length ≤ (extract_sessions_from_text_chunks oracle chunks year).length)
    ∧ (∀ (oracle : String → String → String → InferenceResult)
        (countries_data : List (Option String × Option String)) (year : String),
        (process_single_year_records oracle countries_data year).length =
          countries_data.length) := by
  have hlen : ∀ (oracle : String → String → Except Unit (List Session))
      (chunks : List (String × String)) (year : String),
      (extract_sessions_from_text_chunks oracle chunks year).length =
        (chunks.map
          (fun chunk =>
            match oracle chunk.1 chunk.2 with
            | Except.error _ => 1
            | Except.ok [] => 1
            | Except.ok (s :: rest) => (s :: rest).length)).sum := by
    intro oracle chunks year
    rw [extract_sessions_eq_flatMap]
    rw [List.length_flatMap]
    congr 1
    apply List.map_congr_left
    intro c _
    cases h : oracle c.1 c.2 with
    | error e => simp [h]
    | ok result =>
        cases result with
        | nil => simp [h]
        | cons s rest => simp [h]
  refine ⟨hlen, ?_, ?_⟩
  · intro oracle chunks year
    rw [hlen oracle chunks year]
    calc chunks.length
        = (chunks.map (fun _ => 1)).sum := by simp
      _ ≤ _ := by
          apply List.sum_le_sum
          intro c _
          cases h : oracle c.1 c.2 with
          | error e => simp [h]
          | ok result => cases result with
            | nil => simp [h]
            | cons s rest => simp [h]
  · intro oracle countries_data year
    unfold process_single_year_records
    simp

/-! ### Claim C4: the extractor never raises and degrades to empty -/

/-- Claim C4 counterexample: a parsed object that carries officials [A] but
lacks the advisers field makes the DelegationInfo constructor raise, so the
whole record degrades to the all-empty delegation; contrary to the claim,
the missing field is not filled with a default while the populated fields
are kept. -/
theorem claim_C4_counterexample :
    extract_delegation_info
        (fun _ _ _ => InferenceResult.parsed
          ⟨some "X", some "2000", some ["A"], some [], some [], none, some false, none, false⟩)
        "X" "chunk body" "2000" = create_empty_delegation "X" "2000"
    ∧ (create_empty_delegation "X" "2000").officials ≠ ["A"] := by
  refine ⟨by decide, by decide⟩

/-- Claim C4 as amended: the extract operation is total and degrades to the
all-empty record tagged with the caller country and year whenever the call
raises, the response has no JSON object, or the parsed object is missing
any required field or carries an unexpected key; only the optional
leader_name field is defaulted (to null) when missing, and when all
required fields are present each field is taken from the parsed object. -/
theorem claim_C4_theorem :
    (∀ (oracle : String → String → String → InferenceResult)
        (country country_text year : String),
      oracle country country_text year = InferenceResult.raised ∨
        oracle country country_text year = InferenceResult.noJson →
      extract_delegation_info oracle country country_text year =
        create_empty_delegation country year)
    ∧ (∀ country year : String,
        create_empty_delegation country year = ⟨country, year, [], [], [], [], false, none⟩)
    ∧ (∀ (oracle : String → String → String → InferenceResult)
        (country country_text year : String) (d : ParsedDelegation),
        oracle country country_text year = InferenceResult.parsed d →
        requiredPresent d = false →
        extract_delegation_info oracle country country_text year =
          create_empty_delegation country year)
    ∧ (∀ (oracle : String → String → String → InferenceResult)
        (country country_text year : String) (d : ParsedDelegation),
        oracle country country_text year = InferenceResult.parsed d →
        requiredPresent d = true →
        extract_delegation_info oracle country country_text year =
          ⟨d.country.getD "", d.year.getD "", d.officials.getD [],
            d.representatives.getD [], d.alternate_representatives.getD [],
            d.advisers.getD [], d.leader_present.getD false, d.leader_name.getD none⟩) := by
  refine ⟨?_, fun _ _ => rfl, ?_, ?_⟩
  · intro oracle c t y h
    unfold extract_delegation_info
    rcases h with h | h <;> rw [h]
  · intro oracle c t y d h hreq
    unfold extract_delegation_info
    rw [h]
    simp [hreq]
  · intro oracle c t y d h hreq
    unfold extract_delegation_info
    rw [h]
    simp [hreq]

/-- Witness for claim C4: a raising call and a parse missing a required
field both yield the all-empty record at concrete inputs, and a complete
parse is taken field by field. -/
theorem claim_C4_witness :
    extract_delegation_info (fun _ _ _ => InferenceResult.raised) "X" "body" "2001" =
      create_empty_delegation "X" "2001"
    ∧ extract_delegation_info
        (fun _ _ _ => InferenceResult.parsed
          ⟨none, none, none, none, none, none, none, none, false⟩) "Y" "body" "2002" =
      create_empty_delegation "Y" "2002"
    ∧ extract_delegation_info
        (fun _ _ _ => InferenceResult.parsed
          ⟨some "Z", some "1999", some [], some [], some [], some [], some true, none, false⟩)
        "Z" "body" "2003" =
      ⟨"Z", "1999", [], [], [], [], true, none⟩ :=
  ⟨claim_C4_theorem.1 _ "X" "body" "2001" (Or.inl rfl),
    claim_C4_theorem.2.2.1 _ "Y" "body" "2002"
      ⟨none, none, none, none, none, none, none, none, false⟩ rfl (by decide),
    claim_C4_theorem.2.2.2 _ "Z" "body" "2003"
      ⟨some "Z", some "1999", some [], some [], some [], some [], some true, none, false⟩
      rfl (by decide)⟩

/-! ### Claim C5: year stamping -/

/-- Claim C5 counterexample: in extract_delegates.py a successful parse
keeps the year the inference call returned, so when the call answers 1999
for a document whose filename-derived year is 2000, the record carries
1999; the caller year is not stamped over it. -/
theorem claim_C5_counterexample :
    (extract_delegation_info
        (fun _ _ _ => InferenceResult.parsed
          ⟨some "X", some "1999", some [], some [], some [], some [], some false, none, false⟩)
        "X" "chunk body" "2000").year = "1999"
    ∧ ("1999" : String) ≠ "2000" := by
  refine ⟨by decide, by decide⟩

/-- Claim C5 as amended: in count.py every output record carries the caller
(filename-derived) year and all other fields of a returned session are kept
unchanged; in extract_delegates.py only degraded records are tagged with
the caller year, while a successful extraction keeps the year field the
call returned. -/
theorem claim_C5_theorem :
    (∀ (oracle : String → String → Except Unit (List Session))
        (chunks : List (String × String)) (year : String) (s : Session),
      s ∈ extract_sessions_from_text_chunks oracle chunks year → s.year = year)
    ∧ (∀ (oracle : String → String → Except Unit (List Session))
        (chunks : List (String × String)) (year : String),
        extract_sessions_from_text_chunks oracle chunks year =
          chunks.flatMap
            (fun chunk =>
              match oracle chunk.1 chunk.2 with
              | Except.error _ => [default_session chunk.1 year]
              | Except.ok result =>
                  (if result = [] then [default_session chunk.1 year] else result).map
                    (fun s => { s with year := year })))
    ∧ (∀ (oracle : String → String → String → InferenceResult)
        (country country_text year : String),
        oracle country country_text year = InferenceResult.raised →
        (extract_delegation_info oracle country country_text year).year = year)
    ∧ (∀ (oracle : String → String → String → InferenceResult)
        (country country_text year : String) (d : ParsedDelegation),
        oracle country country_text year = InferenceResult.parsed d →
        requiredPresent d = true →
        (extract_delegation_info oracle country country_text year).year = d.year.getD "") := by
  refine ⟨?_, extract_sessions_eq_flatMap, ?_, ?_⟩
  · intro oracle chunks year s hs
    rw [extract_sessions_eq_flatMap] at hs
    rcases List.mem_flatMap.1 hs with ⟨c, _, hsc⟩
    cases h : oracle c.1 c.2 with
    | error e =>
        rw [h] at hsc
        simp only [List.mem_singleton] at hsc
        rw [hsc]
        rfl
    | ok result =>
        rw [h] at hsc
        rcases List.mem_map.1 hsc with ⟨x, _, hx⟩
        rw [← hx]
  · intro oracle c t y h
    unfold extract_delegation_info
    rw [h]
    rfl
  · intro oracle c t y d h hreq
    unfold extract_delegation_info
    rw [h]
    simp [hreq]

/-- Witness for claim C5: the caller year 2000 is stamped on a concrete
count.py record, a degraded extract_delegates record carries the caller
year, and a successful parse keeps its own year. -/
theorem claim_C5_witness :
    (default_session "A" "2000").year = "2000"
    ∧ (extract_delegation_info (fun _ _ _ => InferenceResult.raised) "X" "body" "2000").year =
      "2000"
    ∧ (extract_delegation_info
        (fun _ _ _ => InferenceResult.parsed
          ⟨some "X", some "1998", some [], some [], some [], some [], some false, none, false⟩)
        "X" "body" "2000").year =
      (ParsedDelegation.year
        ⟨some "X", some "1998", some [], some [], some [], some [], some false, none, false⟩).getD
        "" :=
  ⟨claim_C5_theorem.1 (fun _ _ => Except.error ()) [("A", "text")] "2000"
      (default_session "A" "2000") (by decide),
    claim_C5_theorem.2.2.1 _ "X" "body" "2000" rfl,
    claim_C5_theorem.2.2.2 _ "X" "body" "2000" _ rfl (by decide)⟩

/-! ### Claim C2: the assessed-contributions bifurcation -/

theorem DecNum_toQ_add (a b : DecNum) : (DecNum.add a b).toQ = a.toQ + b.toQ := by
  unfold DecNum.toQ DecNum.add
  have h1 : ((10 : ℚ)) ^ a.e ≠ 0 := pow_ne_zero _ (by norm_num)
  have h2 : ((10 : ℚ)) ^ b.e ≠ 0 := pow_ne_zero _ (by norm_num)
  push_cast
  rw [pow_add]
  field_simp

theorem pyStrOfDec_ne_nil (d : DecNum) : pyStrOfDec d ≠ [] := by
  unfold pyStrOfDec
  simp

/-- Claim C2 counterexample: a year-2008 extract_contributions record with
collections cell 100 and no outstanding column has its outstanding field
missing, yet its assessed field is the defined numeral 100.0 (the missing
value was treated as zero and summed), contradicting the claimed
defined-iff-both-present invariant. -/
theorem claim_C2_counterexample :
    (extract_record_le2010 2008 "France" (some "100".toList) none).total_outstanding_contributions = []
    ∧ (extract_record_le2010 2008 "France" (some "100".toList) none).assessed_contributions =
      "100.0".toList
    ∧ "100.0".toList ≠ ([] : List Char) := by
  refine ⟨by decide, by decide, by decide⟩

/-- Claim C2 as amended: in combine_contributions.py the invariant holds as
claimed for years up to 2010 (assessed defined exactly when both legacy
fields are, and then equal to their sum) and for 2011-2016 assessed is read
from the designated column with the legacy fields undefined; in
extract_contributions.py, however, a missing or unparsable legacy field is
treated as zero, assessed is the formatted sum whenever the two values are
not both zero, and assessed is therefore defined exactly when the year-le-2010
sum rule extract_assessed_le2010 produces a value, not when both fields are
present. -/
theorem claim_C2_theorem :
    (∀ (y : Int) (c : String) (ac oc : Option String),
      (combine_row_le2010 y c ac oc).assessed_contributions.isSome =
        ((combine_row_le2010 y c ac oc).annual_contributions.isSome &&
          (combine_row_le2010 y c ac oc).total_outstanding_contributions.isSome))
    ∧ (∀ (y : Int) (c : String) (ac oc : Option String) (a o : DecNum),
        (combine_row_le2010 y c ac oc).annual_contributions = some a →
        (combine_row_le2010 y c ac oc).total_outstanding_contributions = some o →
        ∃ d, (combine_row_le2010 y c ac oc).assessed_contributions = some d ∧
          d.toQ = a.toQ + o.toQ)
    ∧ (∀ (y : Int) (c : String) (asc : Option String),
        combine_row_2011_2015 y c asc = ⟨y, c, none, none, clean_numeric asc⟩)
    ∧ (∀ (y : Int) (c : String) (asc : Option String),
        combine_row_2016 y c asc = ⟨y, c, none, none, clean_numeric asc⟩)
    ∧ (∀ (y : Int) (c : String) (ac oc : Option (List Char)),
        ((extract_record_le2010 y c ac oc).assessed_contributions ≠ [] ↔
          extract_assessed_le2010 (clean_numeric_value ac) (clean_numeric_value oc) ≠ none))
    ∧ (∀ (y : Int) (c : String) (ac oc : Option (List Char)) (d : DecNum),
        extract_assessed_le2010 (clean_numeric_value ac) (clean_numeric_value oc) = some d →
        (extract_record_le2010 y c ac oc).assessed_contributions = pyStrOfDec d)
    ∧ (∀ (y : Int) (c : String) (asc : Option (List Char)),
        extract_record_post2010 y c asc = ⟨y, c, [], [], clean_numeric_value asc⟩)
    ∧ (∀ a b : DecNum, (DecNum.add a b).toQ = a.toQ + b.toQ) := by
  refine ⟨?_, ?_, fun _ _ _ => rfl, fun _ _ _ => rfl, ?_, ?_, fun _ _ _ => rfl, DecNum_toQ_add⟩
  · intro y c ac oc
    cases h1 : clean_numeric ac <;> cases h2 : clean_numeric oc <;>
      simp [combine_row_le2010, h1, h2]
  · intro y c ac oc a o h1 h2
    simp only [combine_row_le2010] at h1 h2 ⊢
    rw [h1, h2]
    exact ⟨a.add o, rfl, DecNum_toQ_add a o⟩
  · intro y c ac oc
    cases h : extract_assessed_le2010 (clean_numeric_value ac) (clean_numeric_value oc) with
    | none => simp [extract_record_le2010, h]
    | some d => simp [extract_record_le2010, h, pyStrOfDec_ne_nil d]
  · intro y c ac oc d h
    simp [extract_record_le2010, h]

/-- Witness for claim C2: the specification examples for year 2008 on the
combine path, with 100 and 50 summing to the assessed value 150. -/
theorem claim_C2_witness :
    ∃ d, (combine_row_le2010 2008 "X" (some "100") (some "50")).assessed_contributions = some d ∧
      d.toQ = DecNum.toQ ⟨100, 0⟩ + DecNum.toQ ⟨50, 0⟩ :=
  claim_C2_theorem.2.1 2008 "X" (some "100") (some "50") ⟨100, 0⟩ ⟨50, 0⟩ (by decide) (by decide)

/-! ### Claim C8: presentation sort order -/

theorem ordInsert_perm (le : α → α → Bool) (x : α) :
    ∀ l : List α, List.Perm (ordInsert le x l) (x :: l) := by
  intro l
  induction l with
  | nil => exact List.Perm.refl _
  | cons y ys ih =>
      unfold ordInsert
      by_cases h : le x y = true
      · rw [if_pos h]
      · rw [if_neg h]
        exact (ih.cons y).trans (List.Perm.swap x y ys)

theorem isortBy_perm (le : α → α → Bool) :
    ∀ l : List α, List.Perm (isortBy le l) l := by
  intro l
  induction l with
  | nil => exact List.Perm.refl _
  | cons a l ih =>
      have : isortBy le (a :: l) = ordInsert le a (isortBy le l) := rfl
      rw [this]
      exact (ordInsert_perm le a (isortBy le l)).trans (ih.cons a)

theorem pairwise_ordInsert (le : α → α → Bool)
    (htot : ∀ a b, le a b = true ∨ le b a = true)
    (htrans : ∀ a b c, le a b = true → le b c = true → le a c = true) (x : α) :
    ∀ l : List α, l.Pairwise (fun a b => le a b = true) →
      (ordInsert le x l).Pairwise (fun a b => le a b = true) := by
  intro l
  induction l with
  | nil => intro _; simp [ordInsert]
  | cons y ys ih =>
      intro hl
      rcases List.pairwise_cons.1 hl with ⟨hy, hys⟩
      unfold ordInsert
      by_cases h : le x y = true
      · rw [if_pos h]
        refine List.pairwise_cons.2 ⟨?_, hl⟩
        intro z hz
        rcases List.mem_cons.1 hz with rfl | hz
        · exact h
        · exact htrans x y z h (hy z hz)
      · rw [if_neg h]
        refine List.pairwise_cons.2 ⟨?_, ih hys⟩
        intro z hz
        have hz2 : z ∈ x :: ys := (ordInsert_perm le x ys).mem_iff.1 hz
        rcases List.mem_cons.1 hz2 with rfl | hz3
        · rcases htot z y with hxy | hyx
          · exact absurd hxy h
          · exact hyx
        · exact hy z hz3

theorem pairwise_isortBy (le : α → α → Bool)
    (htot : ∀ a b, le a b = true ∨ le b a = true)
    (htrans : ∀ a b c, le a b = true → le b c = true → le a c = true) :
    ∀ l : List α, (isortBy le l).Pairwise (fun a b => le a b = true) := by
  intro l
  induction l with
  | nil => simp [isortBy]
  | cons a l ih =>
      have : isortBy le (a :: l) = ordInsert le a (isortBy le l) := rfl
      rw [this]
      exact pairwise_ordInsert le htot htrans a (isortBy le l) ih

theorem ordInsert_filter_of_key {κ : Type} [DecidableEq κ] (key : α → κ) (kle : κ → κ → Bool)
    (hrefl : ∀ k, kle k k = true) (x : α) (k : κ) (hx : key x = k) :
    ∀ s : List α,
      (ordInsert (fun a b => kle (key a) (key b)) x s).filter (fun z => decide (key z = k)) =
        x :: s.filter (fun z => decide (key z = k)) := by
  intro s
  induction s with
  | nil => simp [ordInsert, hx]
  | cons y ys ih =>
      unfold ordInsert
      by_cases h : kle (key x) (key y) = true
      · rw [if_pos h]
        simp [hx]
      · rw [if_neg h]
        have hyk : key y ≠ k := by
          intro hk
          rw [hx, hk] at h
          exact h (hrefl k)
        rw [List.filter_cons, List.filter_cons]
        simp only [decide_eq_true_eq]
        rw [if_neg hyk, if_neg hyk]
        exact ih

theorem ordInsert_filter_of_ne {κ : Type} [DecidableEq κ] (key : α → κ) (kle : κ → κ → Bool)
    (x : α) (k : κ) (hx : key x ≠ k) :
    ∀ s : List α,
      (ordInsert (fun a b => kle (key a) (key b)) x s).filter (fun z => decide (key z = k)) =
        s.filter (fun z => decide (key z = k)) := by
  intro s
  induction s with
  | nil => simp [ordInsert, hx]
  | cons y ys ih =>
      unfold ordInsert
      by_cases h : kle (key x) (key y) = true
      · rw [if_pos h]
        rw [List.filter_cons]
        simp only [decide_eq_true_eq]
        rw [if_neg hx]
      · rw [if_neg h]
        rw [List.filter_cons, List.filter_cons]
        by_cases hyk : key y = k
        · simp only [decide_eq_true_eq]
          rw [if_pos hyk, if_pos hyk, ih]
        · simp only [decide_eq_true_eq]
          rw [if_neg hyk, if_neg hyk]
          exact ih

theorem isortBy_filter_key {κ : Type} [DecidableEq κ] (key : α → κ) (kle : κ → κ → Bool)
    (hrefl : ∀ k, kle k k = true) (k : κ) :
    ∀ l : List α,
      (isortBy (fun a b => kle (key a) (key b)) l).filter (fun z => decide (key z = k)) =
        l.filter (fun z => decide (key z = k)) := by
  intro l
  induction l with
  | nil => rfl
  | cons a l ih =>
      have hs : isortBy (fun a b => kle (key a) (key b)) (a :: l) =
          ordInsert (fun a b => kle (key a) (key b)) a
            (isortBy (fun a b => kle (key a) (key b)) l) := rfl
      rw [hs]
      by_cases ha : key a = k
      · rw [ordInsert_filter_of_key key kle hrefl a k ha, ih, List.filter_cons]
        simp only [decide_eq_true_eq]
        rw [if_pos ha]
      · rw [ordInsert_filter_of_ne key kle a k ha, ih, List.filter_cons]
        simp only [decide_eq_true_eq]
        rw [if_neg ha]

theorem listLeB_refl : ∀ l : List Char, listLeB l l = true := by
  intro l
  induction l with
  | nil => rfl
  | cons c t ih => simp [listLeB, lt_irrefl, ih]

theorem listLeB_total : ∀ a b : List Char, listLeB a b = true ∨ listLeB b a = true := by
  intro a
  induction a with
  | nil => intro b; left; rfl
  | cons x xs ih =>
      intro b
      cases b with
      | nil => right; rfl
      | cons y ys =>
          by_cases h1 : x < y
          · left; simp [listLeB, h1]
          · by_cases h2 : y < x
            · right; simp [listLeB, h2]
            · have hxy : x = y := le_antisymm (not_lt.1 h2) (not_lt.1 h1)
              subst hxy
              rcases ih ys with h | h
              · left; simpa [listLeB, lt_irrefl] using h
              · right; simpa [listLeB, lt_irrefl] using h

theorem listLeB_trans :
    ∀ a b c : List Char, listLeB a b = true → listLeB b c = true → listLeB a c = true := by
  intro a
  induction a with
  | nil => intro b c _ _; rfl
  | cons x xs ih =>
      intro b c hab hbc
      cases b with
      | nil => simp [listLeB] at hab
      | cons y ys =>
          cases c with
          | nil => simp [listLeB] at hbc
          | cons z zs =>
              by_cases hxy : x < y
              · by_cases hyz : y < z
                · simp [listLeB, lt_trans hxy hyz]
                · by_cases hzy : z < y
                  · simp [listLeB, hyz, hzy] at hbc
                  · have : y = z := le_antisymm (not_lt.1 hzy) (not_lt.1 hyz)
                    subst this
                    simp [listLeB, hxy]
              · by_cases hyx : y < x
                · simp [listLeB, hxy, hyx] at hab
                · have hxyeq : x = y := le_antisymm (not_lt.1 hyx) (not_lt.1 hxy)
                  subst hxyeq
                  simp only [listLeB, if_neg (lt_irrefl x)] at hab
                  by_cases hxz : x < z
                  · simp [listLeB, hxz]
                  · by_cases hzx : z < x
                    · simp [listLeB, hxz, hzx] at hbc
                    · have hxzeq : x = z := le_antisymm (not_lt.1 hzx) (not_lt.1 hxz)
                      subst hxzeq
                      simp only [listLeB, if_neg (lt_irrefl x)] at hbc ⊢
                      exact ih ys zs hab hbc

theorem listLeB_antisym :
    ∀ a b : List Char, listLeB a b = true → listLeB b a = true → a = b := by
  intro a
  induction a with
  | nil =>
      intro b hab hba
      cases b with
      | nil => rfl
      | cons y ys => simp [listLeB] at hba
  | cons x xs ih =>
      intro b hab hba
      cases b with
      | nil => simp [listLeB] at hab
      | cons y ys =>
          by_cases hxy : x < y
          · simp [listLeB, hxy, lt_asymm hxy] at hba
          · by_cases hyx : y < x
            · simp [listLeB, hxy, hyx] at hab
            · have hxyeq : x = y := le_antisymm (not_lt.1 hyx) (not_lt.1 hxy)
              subst hxyeq
              simp only [listLeB, if_neg (lt_irrefl x)] at hab hba
              rw [ih ys hab hba]

theorem string_toList_inj {a b : String} (h : a.toList = b.toList) : a = b := by
  cases a
  cases b
  exact congrArg String.mk h

theorem strLeB_refl : ∀ s : String, strLeB s s = true :=
  fun s => listLeB_refl s.toList

theorem strLeB_total : ∀ a b : String, strLeB a b = true ∨ strLeB b a = true :=
  fun a b => listLeB_total a.toList b.toList

theorem strLeB_trans :
    ∀ a b c : String, strLeB a b = true → strLeB b c = true → strLeB a c = true :=
  fun a b c hab hbc => listLeB_trans a.toList b.toList c.toList hab hbc

theorem strLeB_antisym : ∀ a b : String, strLeB a b = true → strLeB b a = true → a = b :=
  fun a b hab hba => string_toList_inj (listLeB_antisym a.toList b.toList hab hba)

theorem optIntLeB_refl : ∀ x : Option Int, optIntLeB x x = true := by
  intro x
  cases x <;> simp [optIntLeB]

theorem optIntLeB_total : ∀ x y : Option Int, optIntLeB x y = true ∨ optIntLeB y x = true := by
  intro x y
  cases x <;> cases y <;> simp [optIntLeB] <;> omega

theorem optIntLeB_trans :
    ∀ x y z : Option Int, optIntLeB x y = true → optIntLeB y z = true →
      optIntLeB x z = true := by
  intro x y z hxy hyz
  cases x <;> cases y <;> cases z <;> simp [optIntLeB] at * <;> omega

theorem optIntLeB_antisym :
    ∀ x y : Option Int, optIntLeB x y = true → optIntLeB y x = true → x = y := by
  intro x y hxy hyx
  cases x <;> cases y <;> simp [optIntLeB] at * <;> omega

theorem intLeB_refl : ∀ x : Int, (fun a b : Int => (a ≤ b : Bool)) x x = true := by
  intro x; simp

theorem intLeB_total :
    ∀ x y : Int, (fun a b : Int => (a ≤ b : Bool)) x y = true ∨
      (fun a b : Int => (a ≤ b : Bool)) y x = true := by
  intro x y; simp; omega

theorem intLeB_trans :
    ∀ x y z : Int, (fun a b : Int => (a ≤ b : Bool)) x y = true →
      (fun a b : Int => (a ≤ b : Bool)) y z = true →
      (fun a b : Int => (a ≤ b : Bool)) x z = true := by
  intro x y z hxy hyz; simp at *; omega

theorem intLeB_antisym :
    ∀ x y : Int, (fun a b : Int => (a ≤ b : Bool)) x y = true →
      (fun a b : Int => (a ≤ b : Bool)) y x = true → x = y := by
  intro x y hxy hyx; simp at *; omega

theorem pairLeB_refl {α β : Type} [DecidableEq α] (le1 : α → α → Bool) (le2 : β → β → Bool)
    (h2 : ∀ b, le2 b b = true) : ∀ x : α × β, pairLeB le1 le2 x x = true := by
  intro x
  simp [pairLeB, h2]

theorem pairLeB_total {α β : Type} [DecidableEq α] (le1 : α → α → Bool) (le2 : β → β → Bool)
    (h1 : ∀ a b, le1 a b = true ∨ le1 b a = true)
    (h2 : ∀ a b, le2 a b = true ∨ le2 b a = true) :
    ∀ x y : α × β, pairLeB le1 le2 x y = true ∨ pairLeB le1 le2 y x = true := by
  intro x y
  unfold pairLeB
  by_cases h : x.1 = y.1
  · rw [if_pos h, if_pos h.symm]
    exact h2 x.2 y.2
  · rw [if_neg h, if_neg (fun he => h he.symm)]
    exact h1 x.1 y.1

theorem pairLeB_trans {α β : Type} [DecidableEq α] (le1 : α → α → Bool) (le2 : β → β → Bool)
    (h1t : ∀ a b c, le1 a b = true → le1 b c = true → le1 a c = true)
    (h1a : ∀ a b, le1 a b = true → le1 b a = true → a = b)
    (h2t : ∀ a b c, le2 a b = true → le2 b c = true → le2 a c = true) :
    ∀ x y z : α × β, pairLeB le1 le2 x y = true → pairLeB le1 le2 y z = true →
      pairLeB le1 le2 x z = true := by
  intro x y z hxy hyz
  unfold pairLeB at *
  by_cases hxy1 : x.1 = y.1
  · rw [if_pos hxy1] at hxy
    by_cases hyz1 : y.1 = z.1
    · rw [if_pos hyz1] at hyz
      rw [if_pos (hxy1.trans hyz1)]
      exact h2t _ _ _ hxy hyz
    · rw [if_neg hyz1] at hyz
      rw [if_neg (fun he => hyz1 (hxy1 ▸ he)), hxy1]
      exact hyz
  · rw [if_neg hxy1] at hxy
    by_cases hyz1 : y.1 = z.1
    · rw [if_neg (fun he => hxy1 (he.trans hyz1.symm)), ← hyz1]
      exact hxy
    · rw [if_neg hyz1] at hyz
      have hxz1 : x.1 ≠ z.1 := by
        intro he
        exact hxy1 (h1a x.1 y.1 hxy (he ▸ hyz))
      rw [if_neg hxz1]
      exact h1t _ _ _ hxy hyz

/-- Claim C8 counterexample: the merged contributions frame is sorted by
(year, country), not (country, year): with rows (year 2000, country B) and
(year 2001, country A) the code keeps B before A, an order that is not
ascending by the (country, year) pair the claim states. -/
theorem claim_C8_counterexample :
    sort_contrib_rows
        [⟨2000, "B", [], [], []⟩, ⟨2001, "A", [], [], []⟩] =
      [⟨2000, "B", [], [], []⟩, ⟨2001, "A", [], [], []⟩]
    ∧ ¬ List.Pairwise (fun a b => specContribLe a b = true)
        ([⟨2000, "B", [], [], []⟩, ⟨2001, "A", [], [], []⟩] : List ContribRecordE) := by
  refine ⟨by decide, by decide⟩

/-- Claim C8 as amended: every presentation sort is a stable ascending
sort, but on different keys: the two delegation exports sort by
(country, year) while the merged contributions export sorts by
(year, country).  For each sort the output is ordered by its key, is a
permutation of the input, and keeps rows with equal keys in input order. -/
theorem claim_C8_theorem :
    (∀ rows : List CountRow,
      (sort_count_rows rows).Pairwise
        (fun a b => pairLeB strLeB strLeB (countRowKey a) (countRowKey b) = true)
      ∧ List.Perm (sort_count_rows rows) rows
      ∧ ∀ k, (sort_count_rows rows).filter (fun r => decide (countRowKey r = k)) =
          rows.filter (fun r => decide (countRowKey r = k)))
    ∧ (∀ rows : List DelegRow,
      (sort_deleg_rows rows).Pairwise
        (fun a b => pairLeB strLeB optIntLeB (delegRowKey a) (delegRowKey b) = true)
      ∧ List.Perm (sort_deleg_rows rows) rows
      ∧ ∀ k, (sort_deleg_rows rows).filter (fun r => decide (delegRowKey r = k)) =
          rows.filter (fun r => decide (delegRowKey r = k)))
    ∧ (∀ rows : List ContribRecordE,
      (sort_contrib_rows rows).Pairwise
        (fun a b =>
          pairLeB (fun x y : Int => (x ≤ y : Bool)) strLeB (contribRowKey a)
            (contribRowKey b) = true)
      ∧ List.Perm (sort_contrib_rows rows) rows
      ∧ ∀ k, (sort_contrib_rows rows).filter (fun r => decide (contribRowKey r = k)) =
          rows.filter (fun r => decide (contribRowKey r = k))) := by
  refine ⟨?_, ?_, ?_⟩
  · intro rows
    refine ⟨?_, isortBy_perm _ rows, fun k => ?_⟩
    · exact pairwise_isortBy _
        (fun a b => pairLeB_total strLeB strLeB strLeB_total strLeB_total
          (countRowKey a) (countRowKey b))
        (fun a b c => pairLeB_trans strLeB strLeB strLeB_trans strLeB_antisym strLeB_trans
          (countRowKey a) (countRowKey b) (countRowKey c))
        rows
    · exact isortBy_filter_key countRowKey (pairLeB strLeB strLeB)
        (pairLeB_refl strLeB strLeB strLeB_refl) k rows
  · intro rows
    refine ⟨?_, isortBy_perm _ rows, fun k => ?_⟩
    · exact pairwise_isortBy _
        (fun a b => pairLeB_total strLeB optIntLeB strLeB_total optIntLeB_total
          (delegRowKey a) (delegRowKey b))
        (fun a b c => pairLeB_trans strLeB optIntLeB strLeB_trans strLeB_antisym
          optIntLeB_trans (delegRowKey a) (delegRowKey b) (delegRowKey c))
        rows
    · exact isortBy_filter_key delegRowKey (pairLeB strLeB optIntLeB)
        (pairLeB_refl strLeB optIntLeB optIntLeB_refl) k rows
  · intro rows
    refine ⟨?_, isortBy_perm _ rows, fun k => ?_⟩
    · exact pairwise_isortBy _
        (fun a b => pairLeB_total (fun x y : Int => (x ≤ y : Bool)) strLeB intLeB_total
          strLeB_total (contribRowKey a) (contribRowKey b))
        (fun a b c => pairLeB_trans (fun x y : Int => (x ≤ y : Bool)) strLeB intLeB_trans
          intLeB_antisym strLeB_trans (contribRowKey a) (contribRowKey b) (contribRowKey c))
        rows
    · exact isortBy_filter_key contribRowKey (pairLeB (fun x y : Int => (x ≤ y : Bool)) strLeB)
        (pairLeB_refl (fun x y : Int => (x ≤ y : Bool)) strLeB strLeB_refl) k rows

/-! ### Claim C10: the aggregate-row filter of the final merge -/

/-- Claim C10: in the final merged output a row is removed exactly when its
country contains the substring total case-insensitively, nothing else is
removed or added by this filter, and the per-year stages of both
contribution scripts keep such rows (the extract stage keeps a Total row,
the combine stage maps every sheet row to a record). -/
theorem claim_C10_theorem :
    (∀ (l : List ContribRecordC) (r : ContribRecordC), r ∈ l →
      (r ∈ filter_total_rows l ↔ row_is_total r.country = false))
    ∧ (∀ (l : List ContribRecordC) (r : ContribRecordC), r ∈ filter_total_rows l → r ∈ l)
    ∧ ((extract_rows 2008 [(some "Total", some "100", some "50", none)]).map
        (fun r => r.country) = ["Total"])
    ∧ (∀ (y : Int) (rows : List (Option String × Option String × Option String)),
        (combine_sheet_le2010 y rows).length = rows.length) := by
  refine ⟨?_, ?_, by decide, ?_⟩
  · intro l r hr
    unfold filter_total_rows
    rw [List.mem_filter]
    constructor
    · intro h
      simpa using h.2
    · intro h
      exact ⟨hr, by simpa using h⟩
  · intro l r hr
    exact (List.mem_filter.1 hr).1
  · intro y rows
    unfold combine_sheet_le2010
    rw [List.length_map]

/-- Witness for claim C10: a France row survives the total filter in a
concrete merged list that also contains a Total aggregate row. -/
theorem claim_C10_witness :
    (⟨2000, "France", none, none, none⟩ : ContribRecordC) ∈
        filter_total_rows
          [⟨2000, "Total, all countries", none, none, none⟩,
            ⟨2000, "France", none, none, none⟩] ↔
      row_is_total (ContribRecordC.country ⟨2000, "France", none, none, none⟩) = false :=
  claim_C10_theorem.1
    [⟨2000, "Total, all countries", none, none, none⟩, ⟨2000, "France", none, none, none⟩]
    ⟨2000, "France", none, none, none⟩ (by decide)
